/-
Verification of the Atlas frontend (Electron/React renderer) against its
natural-language specification.

The development shallowly embeds the renderer-side logic:
  * the SSE stream consumer of `chatApi.sendMessage` (services/api.ts),
  * the stop/cancel handler of `ChatPanel` (components/ChatPanel.tsx),
  * the Zustand store transitions of `knowledgeBaseStore.ts` and
    `conversationStore.ts` (success and failure paths of each action are
    embedded as pure state-transition functions, with the result of the
    awaited HTTP call passed in as an `Except` value),
  * the document-status polling effect of `KnowledgeBaseView`
    (components/KnowledgeBaseView.tsx), modelled as a small state machine
    over React effect semantics (cleanup before each re-run and at unmount),
  * reciprocal-rank fusion of the Retrieval Orchestrator, which lives in the
    backend and is modelled from the specification text (see `fuse`).

JavaScript strings are Lean `String`s; `null`/`undefined` become `Option`;
JS truthiness of the string fields that the code branches on is made
explicit (`truthyStr`).
-/
import Mathlib

namespace Atlas

/-- `Reference` record from services/api.ts (citation pointer carried by the
terminal success event).  The `distance` is a numeric payload; it is embedded
as a rational number since no claim computes with it. -/
structure Reference where
  knowledge_base_id : String
  knowledge_base_name : String
  document_id : String
  filename : String
  chunk_index : Int
  distance : ℚ
deriving DecidableEq, Repr

/-- One parsed SSE data record, as produced by `JSON.parse(line.slice(6))` in
`chatApi.sendMessage`.  Absent JSON fields are `none` / `false`. -/
structure SSERecord where
  error : Option String := none
  done : Bool := false
  content : Option String := none
  reasoning : Option String := none
  references : Option (List Reference) := none
deriving DecidableEq, Repr

/-- JS truthiness of an optional string field (`data.error` is truthy exactly
when present and non-empty). -/
def truthyStr : Option String → Bool
  | none => false
  | some s => s ≠ ""

/-- A callback invocation made by the stream consumer: `onChunk`, `onDone` or
`onError`. -/
inductive StreamEvent where
  | chunk (content reasoning : String)
  | done (references : Option (List Reference))
  | error (msg : String)
deriving DecidableEq, Repr

/-- Whether an event is terminal in the sense of the streaming wire contract
(terminal-success or terminal-error). -/
def StreamEvent.isTerminal : StreamEvent → Bool
  | .chunk _ _ => false
  | .done _ => true
  | .error _ => true

/-- JS `s.split(sep)` for a single-character separator, embedded at the
character level (JS `"a\nb".split("\n") = ["a","b"]`, `"".split("\n") = [""]`,
a trailing separator yields a trailing `""`). -/
def jsSplit (sep : Char) (s : String) : List String :=
  (s.data.splitOn sep).map String.mk

/-- JS `s.startsWith(pre)`, embedded at the character level. -/
def jsStartsWith (pre s : String) : Bool :=
  pre.data.isPrefixOf s.data

/-- The dispatch of one parsed record in `chatApi.sendMessage`:
`if (data.error) onError(data.error) else if (data.done) onDone(data.references)
else onChunk(data.content || '', data.reasoning || '')`. -/
def dispatchRecord (d : SSERecord) : StreamEvent :=
  if truthyStr d.error then .error (d.error.getD "")
  else if d.done then .done d.references
  else .chunk (d.content.getD "") (d.reasoning.getD "")

/-- The body of the `for (const line of lines)` loop in `chatApi.sendMessage`:
a line is dispatched when it starts with `"data: "` and its JSON payload
parses; JSON parse failures are silently ignored.  `parse` abstracts
`JSON.parse` (returning `none` on a parse error). -/
def handleLine (parse : String → Option SSERecord) (line : String) :
    List StreamEvent :=
  if jsStartsWith "data: " line then
    match parse (line.drop 6) with
    | some d => [dispatchRecord d]
    | none => []
  else []

/-- Processing of a list of complete lines, in order (the consumer dispatches
every line; there is no early exit in the loop). -/
def processLines (parse : String → Option SSERecord) (lines : List String) :
    List StreamEvent :=
  (lines.map (handleLine parse)).flatten

/-- The read loop of `chatApi.sendMessage`, starting from a given carry-over
buffer: each network chunk is appended to the buffer, the buffer is split on
newlines, the last (possibly incomplete) line is kept as the new buffer, and
every complete line is dispatched. -/
def runFrom (parse : String → Option SSERecord) (buf : String) :
    List String → List StreamEvent
  | [] => []
  | c :: rest =>
    let lines := jsSplit '\n' (buf ++ c)
    processLines parse lines.dropLast ++
      runFrom parse ((lines.getLast?).getD "") rest

/-- All callback invocations made by `chatApi.sendMessage` while consuming a
byte stream delivered as the given list of network chunks. -/
def runStream (parse : String → Option SSERecord) (chunks : List String) :
    List StreamEvent :=
  runFrom parse "" chunks

/-- The `.catch` handler of `chatApi.sendMessage`: an `AbortError` (user
cancellation) is swallowed; any other rejection is reported via `onError`. -/
def handleCatch (errName errMsg : String) : List StreamEvent :=
  if errName ≠ "AbortError" then [.error errMsg] else []

/-- A run of `chatApi.sendMessage` that the caller aborts after `n` network
chunks have been consumed: the pending `reader.read()` rejects with an
`AbortError`, which the `.catch` handler swallows. -/
def runStreamAborted (parse : String → Option SSERecord)
    (chunks : List String) (n : Nat) : List StreamEvent :=
  runStream parse (chunks.take n) ++ handleCatch "AbortError" "aborted"

/-- The wire-contract requirement on the consumer, as the specification states
it: once a terminal record has been dispatched, no further callback is invoked
(a terminal event may only be the last event). -/
def stopsOnTerminal : List StreamEvent → Bool
  | [] => true
  | e :: rest => if e.isTerminal then rest.isEmpty else stopsOnTerminal rest

/-- A concrete stand-in for `JSON.parse` used to evaluate the stream model on
closed inputs: `"DONE"` parses to a terminal-success record and `"TOK"` to a
content record. -/
def parseDemo : String → Option SSERecord :=
  fun s =>
    if s = "DONE" then some { done := true }
    else if s = "TOK" then some { content := some "hi" } else none

/-- Document processing status (`Document.status` in services/api.ts). -/
inductive DocStatus where
  | pending
  | processing
  | completed
  | failed
deriving DecidableEq, Repr, BEq

/-- `Document` record from services/api.ts. -/
structure Document where
  id : String
  filename : String
  file_type : String
  file_size : Nat
  chunk_count : Nat
  status : DocStatus
  knowledge_base_id : String
  created_at : String
deriving DecidableEq, Repr

/-- `KnowledgeBase` record from services/api.ts. -/
structure KnowledgeBase where
  id : String
  name : String
  description : String
  created_at : String
  updated_at : String
deriving DecidableEq, Repr

/-- `DocumentChunk` record from services/api.ts (metadata flattened). -/
structure DocumentChunk where
  content : String
  document_id : String
  filename : String
  chunk_index : Nat
  total_chunks : Nat
deriving DecidableEq, Repr

/-- `DocumentDetail` from services/api.ts (`Document` plus its chunks; the
`extends` is embedded as an explicit `doc` field, so `detail.id` in the source
reads as `detail.doc.id` here). -/
structure DocumentDetail where
  doc : Document
  chunks : List DocumentChunk
deriving DecidableEq, Repr

/-- The state of the knowledge-base Zustand store
(stores/knowledgeBaseStore.ts). -/
structure KBState where
  knowledgeBases : List KnowledgeBase
  currentKnowledgeBaseId : Option String
  currentDocuments : List Document
  selectedKnowledgeBaseIds : List String
  uploading : Bool
  previewDocument : Option DocumentDetail
  previewLoading : Bool
  loading : Bool
  error : Option String
deriving DecidableEq, Repr

/-- `toggleKnowledgeBaseSelection(id)`: if the id is already selected it is
filtered out, otherwise it is appended (`[...state.selectedKnowledgeBaseIds,
id]`).  Only `selectedKnowledgeBaseIds` is written. -/
def toggleKnowledgeBaseSelection (id : String) (s : KBState) : KBState :=
  let isSelected := s.selectedKnowledgeBaseIds.contains id
  { s with
    selectedKnowledgeBaseIds :=
      if isSelected then s.selectedKnowledgeBaseIds.filter (fun kid => kid ≠ id)
      else s.selectedKnowledgeBaseIds ++ [id] }

/-- `uploadDocument(file)`.  The result of the awaited
`documentApi.upload(file, currentKnowledgeBaseId)` call is passed in as an
`Except` value.  The returned `Bool` records whether the action threw to its
caller (the early `throw` when no knowledge base is selected, or the `throw
error` rethrow of the failure path). -/
def uploadDocument (upload : Except String Document) (s : KBState) :
    KBState × Bool :=
  match s.currentKnowledgeBaseId with
  | none => (s, true)
  | some _ =>
    let s1 := { s with uploading := true, error := none }
    match upload with
    | .ok document =>
      ({ s1 with
          currentDocuments := document :: s1.currentDocuments,
          uploading := false }, false)
    | .error e => ({ s1 with error := some e, uploading := false }, true)

/-- The success path of `deleteDocument(id)` (after `documentApi.delete(id)`
resolves): the document is filtered out of `currentDocuments`, and the preview
is closed exactly when it was showing the deleted document. -/
def deleteDocument (id : String) (s : KBState) : KBState :=
  { s with
    currentDocuments := s.currentDocuments.filter (fun d => d.id ≠ id),
    previewDocument :=
      match s.previewDocument with
      | some p => if p.doc.id = id then none else some p
      | none => none }

/-- The success path of `reindexDocument(id)` (after
`documentApi.reindex(id)` resolves): the local status of the document with
that id is set back to `pending`. -/
def reindexDocument (id : String) (s : KBState) : KBState :=
  { s with
    currentDocuments :=
      s.currentDocuments.map (fun d =>
        if d.id = id then { d with status := .pending } else d) }

/-- The action icons rendered for one document card in `KnowledgeBaseView`:
retry only when `status === 'failed'`, preview only when
`status === 'completed'`, delete unconditionally. -/
inductive DocAction where
  | retry
  | preview
  | deleteDoc
deriving DecidableEq, Repr

/-- The list of actions `KnowledgeBaseView` offers for a document. -/
def documentActions (doc : Document) : List DocAction :=
  (if doc.status = .failed then [DocAction.retry] else []) ++
    (if doc.status = .completed then [DocAction.preview] else []) ++
    [DocAction.deleteDoc]

/-- Message role. -/
inductive Role where
  | user
  | assistant
deriving DecidableEq, Repr

/-- `Message` record from services/api.ts. -/
structure Message where
  id : String
  conversation_id : String
  role : Role
  content : String
  reasoning : Option String
  references : Option (List Reference)
  created_at : String
deriving DecidableEq, Repr

/-- `Conversation` record from services/api.ts. -/
structure Conversation where
  id : String
  title : String
  created_at : String
  updated_at : String
deriving DecidableEq, Repr

/-- The state of the conversation Zustand store (stores/conversationStore.ts). -/
structure ConvState where
  conversations : List Conversation
  currentConversationId : Option String
  messages : List Message
  loading : Bool
  error : Option String
deriving DecidableEq, Repr

/-- The success path of `deleteConversation(id)` (after
`conversationApi.delete(id)` resolves).  Note the JS
`newConversations[0]?.id || null`: an empty-string id of the first remaining
conversation is coerced to `null` by the `||`. -/
def deleteConversation (id : String) (s : ConvState) : ConvState :=
  let newConversations := s.conversations.filter (fun c => c.id ≠ id)
  let newCurrentId : Option String :=
    if s.currentConversationId = some id then
      match newConversations.head? with
      | some c => if c.id = "" then none else some c.id
      | none => none
    else s.currentConversationId
  { s with
    conversations := newConversations,
    currentConversationId := newCurrentId,
    messages := if s.currentConversationId = some id then [] else s.messages }

/-- The component state of `ChatPanel` that `handleStop` touches.
`abortRef` is `true` exactly when `abortRef.current` is non-null. -/
structure ChatState where
  abortRef : Bool
  isGenerating : Bool
  streamingContent : String
  streamingReasoning : String
  messages : List Message
deriving DecidableEq, Repr

/-- `handleStop` in `ChatPanel`: if a stream is in flight (`abortRef.current`
non-null) it is aborted, the ref is cleared, generation stops, and any partial
streamed output is saved as an assistant message.  `now` stands for
`Date.now()` and `iso` for `new Date().toISOString()`; `convId` is the
`conversationId` prop. -/
def handleStop (now : Nat) (iso convId : String) (s : ChatState) : ChatState :=
  if s.abortRef then
    let s1 := { s with abortRef := false, isGenerating := false }
    if s.streamingContent ≠ "" ∨ s.streamingReasoning ≠ "" then
      { s1 with
        messages := s1.messages ++
          [{ id := "temp-" ++ toString now ++ "-assistant",
             conversation_id := convId,
             role := .assistant,
             content := s.streamingContent,
             reasoning :=
               if s.streamingReasoning = "" then none
               else some s.streamingReasoning,
             references := none,
             created_at := iso }],
        streamingContent := "",
        streamingReasoning := "" }
    else s1
  else s

/-- `hasPendingDocs` in `KnowledgeBaseView`: whether some document of the
current list is still being worked on. -/
def hasPendingDocs (docs : List Document) : Bool :=
  docs.any (fun doc => doc.status == .pending || doc.status == .processing)

/-- The timer state surrounding the polling `useEffect` of
`KnowledgeBaseView`: the set of live interval timers (identified by the id
`setInterval` returned), the component's `pollingRef`, and a fresh-id
counter. -/
structure PollState where
  live : List Nat
  pollingRef : Option Nat
  next : Nat
deriving DecidableEq, Repr

/-- The effect cleanup: `if (pollingRef.current) { clearInterval(...);
pollingRef.current = null }`. -/
def pollCleanup (s : PollState) : PollState :=
  match s.pollingRef with
  | some t => { s with live := s.live.filter (fun x => x ≠ t), pollingRef := none }
  | none => s

/-- The effect body: when some document is pending/processing, start a
3-second interval and remember it in `pollingRef`. -/
def pollEffect (hasPending : Bool) (s : PollState) : PollState :=
  if hasPending then
    { live := s.live ++ [s.next], pollingRef := some s.next, next := s.next + 1 }
  else s

/-- React effect semantics for the polling effect over a sequence of rendered
document lists: the effect (preceded by its cleanup) re-runs exactly when its
`hasPendingDocs` dependency changed since the previous committed render
(`prev`; `none` on mount). -/
def pollRenders (prev : Option Bool) (s : PollState) :
    List (List Document) → PollState
  | [] => s
  | docs :: rest =>
    let f := hasPendingDocs docs
    let s1 := if prev = some f then s else pollEffect f (pollCleanup s)
    pollRenders (some f) s1 rest

/-- The timer state after mounting `KnowledgeBaseView` and committing the
given sequence of renders, starting with no timers. -/
def pollRun (renders : List (List Document)) : PollState :=
  pollRenders none ⟨[], none, 0⟩ renders

/-- Unmounting runs the pending cleanup. -/
def pollUnmount (s : PollState) : PollState := pollCleanup s

/-- Modelled from the spec: the Retrieval Orchestrator's fusion stage
(reciprocal-rank fusion) is backend code that is not part of the sources
under verification; this item type and `fuse` below follow §4.2 step 4 of
the specification.  An item is identified by its merge key
`(doc_id, chunk_index)`. -/
structure FusionItem where
  doc_id : String
  chunk_index : Int
deriving DecidableEq, Repr, BEq

/-- Zero-based rank of an item in a ranked list (`none` when absent). -/
def rankOf (l : List FusionItem) (c : FusionItem) : Option Nat :=
  l.findIdx? (fun x => x == c)

/-- Modelled from the spec: `score(item) = Σ 1/(k + rank_in_list)` over the
lists containing the item, `k` a fixed constant (left as a parameter since
the specification does not fix its value). -/
def rrfScore (k : ℚ) (vecList kwList : List FusionItem) (c : FusionItem) : ℚ :=
  (match rankOf vecList c with
   | some r => 1 / (k + (r : ℚ))
   | none => 0) +
  (match rankOf kwList c with
   | some r => 1 / (k + (r : ℚ))
   | none => 0)

/-- Comparison of optional vector ranks for the tie-break: a ranked item
comes before an unranked one; two unranked items tie (left to the stable
sort). -/
def fusionVRankLe : Option Nat → Option Nat → Bool
  | some a, some b => a ≤ b
  | some _, none => true
  | none, some _ => false
  | none, none => true

/-- Modelled from the spec: the fusion order — descending fused score, ties
broken by original vector rank. -/
def fusionLE (k : ℚ) (vecList kwList : List FusionItem) (a b : FusionItem) :
    Prop :=
  rrfScore k vecList kwList b < rrfScore k vecList kwList a ∨
    (rrfScore k vecList kwList a = rrfScore k vecList kwList b ∧
      fusionVRankLe (rankOf vecList a) (rankOf vecList b) = true)

instance (k : ℚ) (v kw : List FusionItem) : DecidableRel (fusionLE k v kw) :=
  fun a b => by unfold fusionLE; infer_instance

instance (k : ℚ) (v kw : List FusionItem) :
    IsTotal FusionItem (fusionLE k v kw) := by
  constructor
  intro a b
  have hv : fusionVRankLe (rankOf v a) (rankOf v b) = true ∨
      fusionVRankLe (rankOf v b) (rankOf v a) = true := by
    cases rankOf v a <;> cases rankOf v b <;> simp [fusionVRankLe] <;> omega
  rcases lt_trichotomy (rrfScore k v kw a) (rrfScore k v kw b) with h | h | h
  · exact Or.inr (Or.inl h)
  · rcases hv with hv | hv
    · exact Or.inl (Or.inr ⟨h, hv⟩)
    · exact Or.inr (Or.inr ⟨h.symm, hv⟩)
  · exact Or.inl (Or.inl h)

instance (k : ℚ) (v kw : List FusionItem) :
    IsTrans FusionItem (fusionLE k v kw) := by
  constructor
  intro a b c hab hbc
  have htr : ∀ x y z : Option Nat, fusionVRankLe x y = true →
      fusionVRankLe y z = true → fusionVRankLe x z = true := by
    intro x y z h1 h2
    cases x <;> cases y <;> cases z <;> simp_all [fusionVRankLe] <;> omega
  rcases hab with hab | ⟨hab, hav⟩
  · rcases hbc with hbc | ⟨hbc, _⟩
    · exact Or.inl (hbc.trans hab)
    · exact Or.inl (hbc ▸ hab)
  · rcases hbc with hbc | ⟨hbc, hbv⟩
    · exact Or.inl (by rw [hab]; exact hbc)
    · exact Or.inr ⟨hab.trans hbc, htr _ _ _ hav hbv⟩

/-- Modelled from the spec: reciprocal-rank fusion — merge the two ranked
lists by `(doc_id, chunk_index)`, deduplicate, and sort descending by fused
score with ties broken by original vector rank (stable sort). -/
def fuse (k : ℚ) (vecList kwList : List FusionItem) : List FusionItem :=
  List.insertionSort (fusionLE k vecList kwList) ((vecList ++ kwList).dedup)

/-- A sample document used to evaluate the store transitions. -/
def sampleDoc (id : String) (st : DocStatus) : Document :=
  { id := id, filename := "report.pdf", file_type := "pdf", file_size := 10,
    chunk_count := 0, status := st, knowledge_base_id := "kb1",
    created_at := "t0" }

/-- A sample knowledge base. -/
def sampleKB : KnowledgeBase :=
  { id := "kb1", name := "K1", description := "", created_at := "t0",
    updated_at := "t0" }

/-- A sample knowledge-base store state. -/
def sampleKBState : KBState :=
  { knowledgeBases := [sampleKB],
    currentKnowledgeBaseId := some "kb1",
    currentDocuments := [sampleDoc "d1" .failed, sampleDoc "d2" .completed],
    selectedKnowledgeBaseIds := ["a", "b"],
    uploading := false,
    previewDocument := none,
    previewLoading := false,
    loading := false,
    error := none }

/-- A sample conversation. -/
def sampleConv (id : String) : Conversation :=
  { id := id, title := "chat", created_at := "t0", updated_at := "t0" }

/-- A sample message. -/
def sampleMsg : Message :=
  { id := "m1", conversation_id := "c1", role := .user, content := "hello",
    reasoning := none, references := none, created_at := "t0" }

/-- A sample conversation store state whose second conversation has the empty
string as its id. -/
def sampleConvState : ConvState :=
  { conversations := [sampleConv "c1", sampleConv ""],
    currentConversationId := some "c1",
    messages := [sampleMsg],
    loading := false,
    error := none }

/-- A sample `ChatPanel` state with a stream in flight. -/
def sampleChatState : ChatState :=
  { abortRef := true, isGenerating := true, streamingContent := "hi",
    streamingReasoning := "", messages := [] }

/-- A sample ranked vector-search result list. -/
def sampleFusionV : List FusionItem :=
  [{ doc_id := "doc1", chunk_index := 0 }, { doc_id := "doc2", chunk_index := 1 }]

/-- A sample ranked keyword-search result list. -/
def sampleFusionKw : List FusionItem :=
  [{ doc_id := "doc2", chunk_index := 1 }, { doc_id := "doc3", chunk_index := 0 }]

/-- The list-level core of `toggleKnowledgeBaseSelection`. -/
def toggleL (id : String) (l : List String) : List String :=
  if l.contains id then l.filter (fun kid => kid ≠ id) else l ++ [id]

/-- Invariant of the polling state machine: the component's `pollingRef`
accounts for every live interval timer — there is at most one, namely the one
the ref holds. -/
def PollInv (s : PollState) : Prop :=
  match s.pollingRef with
  | some t => s.live = [t]
  | none => s.live = []

-- ===========================================================================
--  Helper lemmas
-- ===========================================================================

/-- The cleanup leaves no timer behind. -/
theorem pollCleanup_spec (s : PollState) (h : PollInv s) :
    (pollCleanup s).pollingRef = none ∧ (pollCleanup s).live = [] := by
  unfold PollInv at h
  unfold pollCleanup
  cases hp : s.pollingRef with
  | none => rw [hp] at h; exact ⟨hp, h⟩
  | some t =>
    rw [hp] at h
    refine ⟨rfl, ?_⟩
    simp [h]

/-- Running the effect body from a clean state re-establishes the invariant,
with a timer exactly when some document is pending/processing. -/
theorem pollEffect_spec (f : Bool) (s : PollState)
    (href : s.pollingRef = none) (hlive : s.live = []) :
    PollInv (pollEffect f s) ∧ (pollEffect f s).pollingRef.isSome = f := by
  unfold pollEffect PollInv
  cases f with
  | true => simp [hlive]
  | false => simp [href, hlive]

/-- After any committed render sequence the polling invariant holds, and a
timer is live exactly when `hasPendingDocs` of the last committed render was
true.  `prev` is the dependency value at the previous commit; the agreement
hypothesis says the current timer state matches it. -/
theorem pollRenders_inv (renders : List (List Document)) :
    ∀ (prev : Option Bool) (s : PollState), PollInv s →
      (∀ f, prev = some f → s.pollingRef.isSome = f) →
      PollInv (pollRenders prev s renders) ∧
      (pollRenders prev s renders).pollingRef.isSome =
        ((renders.map hasPendingDocs).getLast?.getD s.pollingRef.isSome) := by
  induction renders with
  | nil =>
    intro prev s hinv hagree
    exact ⟨hinv, rfl⟩
  | cons docs rest ih =>
    intro prev s hinv hagree
    simp only [pollRenders]
    by_cases h : prev = some (hasPendingDocs docs)
    · rw [if_pos h]
      have hs : s.pollingRef.isSome = hasPendingDocs docs := hagree _ h
      obtain ⟨h1, h2⟩ := ih (some (hasPendingDocs docs)) s hinv
        (by intro f hf; injection hf with hf; rw [← hf]; exact hs)
      refine ⟨h1, ?_⟩
      rw [h2, hs]
      cases rest with
      | nil => simp
      | cons r rs => simp [List.getLast?]
    · rw [if_neg h]
      obtain ⟨hc1, hc2⟩ := pollCleanup_spec s hinv
      obtain ⟨he1, he2⟩ :=
        pollEffect_spec (hasPendingDocs docs) (pollCleanup s) hc1 hc2
      obtain ⟨h1, h2⟩ := ih (some (hasPendingDocs docs))
        (pollEffect (hasPendingDocs docs) (pollCleanup s)) he1
        (by intro f hf; injection hf with hf; rw [← hf]; exact he2)
      refine ⟨h1, ?_⟩
      rw [h2, he2]
      cases rest with
      | nil => simp
      | cons r rs => simp [List.getLast?]

/-- The state-level toggle acts on the selection list as `toggleL` and leaves
every other field unchanged. -/
theorem toggle_eq_toggleL (id : String) (s : KBState) :
    toggleKnowledgeBaseSelection id s =
      { s with selectedKnowledgeBaseIds := toggleL id s.selectedKnowledgeBaseIds } :=
  rfl

/-- Toggling an unselected id twice restores the selection list exactly. -/
theorem toggleL_not_mem (id : String) (l : List String) (h : id ∉ l) :
    toggleL id (toggleL id l) = l := by
  have hc : l.contains id = false := by
    simp [List.elem_eq_mem, h]
  unfold toggleL
  rw [hc]
  simp only [Bool.false_eq_true, if_false]
  have hc2 : (l ++ [id]).contains id = true := by
    simp [List.elem_eq_mem]
  rw [hc2]
  simp only [if_true, List.filter_append]
  rw [List.filter_eq_self.mpr, List.filter_cons]
  · simp
  · intro a ha
    simp only [ne_eq, decide_eq_true_eq]
    exact fun hai => h (hai ▸ ha)

/-- Toggling twice preserves the set of selected ids. -/
theorem toggleL_mem_iff (id x : String) (l : List String) :
    x ∈ toggleL id (toggleL id l) ↔ x ∈ l := by
  by_cases hmem : id ∈ l
  · have hc : l.contains id = true := by simp [List.elem_eq_mem, hmem]
    have hnot : id ∉ l.filter (fun kid => kid ≠ id) := by
      simp [List.mem_filter]
    have hc2 : (l.filter (fun kid => kid ≠ id)).contains id = false := by
      simp [List.elem_eq_mem, hnot]
    unfold toggleL
    rw [hc]
    simp only [if_true]
    rw [hc2]
    simp only [Bool.false_eq_true, if_false, List.mem_append,
      List.mem_filter, List.mem_singleton]
    constructor
    · rintro (⟨hx, _⟩ | hx)
      · exact hx
      · exact hx ▸ hmem
    · intro hx
      by_cases hxi : x = id
      · exact Or.inr hxi
      · exact Or.inl ⟨hx, by simpa using hxi⟩
  · rw [toggleL_not_mem id l hmem]

/-- A single toggle preserves freedom from duplicates. -/
theorem toggleL_nodup (id : String) (l : List String) (h : l.Nodup) :
    (toggleL id l).Nodup := by
  unfold toggleL
  by_cases hmem : id ∈ l
  · have hc : l.contains id = true := by simp [List.elem_eq_mem, hmem]
    rw [hc]
    simpa using h.filter _
  · have hc : l.contains id = false := by simp [List.elem_eq_mem, hmem]
    rw [hc]
    simp only [Bool.false_eq_true, if_false]
    simpa [List.nodup_append] using ⟨h, hmem⟩

/-- A fold of toggles acts on the selection list as a fold of `toggleL`. -/
theorem foldl_toggle_selected (ids : List String) :
    ∀ s : KBState,
      ((ids.foldl (fun st i => toggleKnowledgeBaseSelection i st)
          s).selectedKnowledgeBaseIds) =
        ids.foldl (fun l i => toggleL i l) s.selectedKnowledgeBaseIds := by
  induction ids with
  | nil => intro s; rfl
  | cons i rest ih =>
    intro s
    simp only [List.foldl_cons]
    rw [ih (toggleKnowledgeBaseSelection i s)]
    rfl

-- ===========================================================================
--  Claim theorems
-- ===========================================================================

/-- C1, counterexample: the claim says that once a terminal record has been
dispatched no further callbacks are invoked, but on the concrete stream
`data: DONE` (terminal success) followed by `data: TOK` (content) the
consumer dispatches an `onChunk` callback after the terminal `onDone`. -/
theorem sendMessage_stops_on_terminal_counterexample :
    stopsOnTerminal (runStream parseDemo ["data: DONE\ndata: TOK\n"]) =
      false := by
  decide

/-- C1, amended: `chatApi.sendMessage` dispatches every complete `data:` line
of the stream in order and does not stop at a terminal record — line
processing distributes over concatenation (no early exit on terminal
records), and on a concrete stream the content record after the terminal
success record is still dispatched. -/
theorem sendMessage_dispatches_all_records
    (parse : String → Option SSERecord) (pre post : List String) :
    processLines parse (pre ++ post) =
      processLines parse pre ++ processLines parse post ∧
    runStream parseDemo ["data: DONE\ndata: TOK\n"] =
      [StreamEvent.done none, StreamEvent.chunk "hi" ""] := by
  constructor
  · simp [processLines]
  · decide

/-- C1, witness: the amended statement at a concrete split of the line
list. -/
theorem sendMessage_dispatches_all_records_witness :
    processLines parseDemo (["data: DONE"] ++ ["data: TOK"]) =
      processLines parseDemo ["data: DONE"] ++
        processLines parseDemo ["data: TOK"] ∧
    runStream parseDemo ["data: DONE\ndata: TOK\n"] =
      [StreamEvent.done none, StreamEvent.chunk "hi" ""] :=
  sendMessage_dispatches_all_records parseDemo ["data: DONE"] ["data: TOK"]

/-- C2: a parsed SSE record whose `done` field is set and whose `error` field
is not truthy is dispatched as exactly one `onDone` callback carrying that
record's `references` — no `onChunk` and no `onError` for that record. -/
theorem sendMessage_done_record_dispatch
    (parse : String → Option SSERecord) (r : SSERecord) (line : String)
    (hdone : r.done = true) (herr : truthyStr r.error = false)
    (hdata : jsStartsWith "data: " line = true)
    (hparse : parse (line.drop 6) = some r) :
    handleLine parse line = [StreamEvent.done r.references] := by
  simp [handleLine, hdata, hparse, dispatchRecord, herr, hdone]

/-- C2, witness: the dispatch of the concrete terminal line `data: DONE`. -/
theorem sendMessage_done_record_dispatch_witness :
    handleLine parseDemo "data: DONE" = [StreamEvent.done none] :=
  sendMessage_done_record_dispatch parseDemo { done := true } "data: DONE"
    rfl rfl (by decide) (by decide)

/-- C3: cancelling a stream — the `AbortError` raised by the abort is
swallowed by the catch handler (cancellation is never reported through
`onError`); the callbacks of a run aborted after `n` network chunks are
exactly those of the first `n` chunks, whatever data would have followed
(zero subsequent content/reasoning events); and `handleStop` surfaces the
stop exactly once: it clears the abort handle, and a second invocation is a
no-op. -/
theorem sendMessage_cancellation
    (parse : String → Option SSERecord) (chunks extra : List String)
    (n : Nat) (hn : n ≤ chunks.length)
    (now now2 : Nat) (iso iso2 convId convId2 : String) (s : ChatState) :
    (∀ msg, handleCatch "AbortError" msg = []) ∧
    runStreamAborted parse (chunks ++ extra) n =
      runStream parse (chunks.take n) ∧
    (handleStop now iso convId s).abortRef = false ∧
    handleStop now2 iso2 convId2 (handleStop now iso convId s) =
      handleStop now iso convId s := by
  refine ⟨fun msg => by simp [handleCatch], ?_, ?_, ?_⟩
  · simp [runStreamAborted, handleCatch, List.take_append_of_le_length hn]
  · by_cases h : s.abortRef = true
    · simp only [handleStop, h, if_true]
      split <;> rfl
    · simp [handleStop, h]
  · by_cases h : s.abortRef = true
    · simp only [handleStop, h, if_true]
      split <;> simp [handleStop]
    · simp [handleStop, h]

/-- C3, witness: a concrete run aborted after one chunk, and a concrete
double stop. -/
theorem sendMessage_cancellation_witness :
    (∀ msg, handleCatch "AbortError" msg = []) ∧
    runStreamAborted parseDemo (["data: TOK\n"] ++ ["data: DONE\n"]) 1 =
      runStream parseDemo (["data: TOK\n"].take 1) ∧
    (handleStop 7 "t1" "c1" sampleChatState).abortRef = false ∧
    handleStop 8 "t2" "c2" (handleStop 7 "t1" "c1" sampleChatState) =
      handleStop 7 "t1" "c1" sampleChatState :=
  sendMessage_cancellation parseDemo ["data: TOK\n"] ["data: DONE\n"] 1
    (by decide) 7 8 "t1" "t2" "c1" "c2" sampleChatState

/-- C4: the retry action is offered exactly for a failed document, and the
success path of `reindexDocument(id)` re-enters `pending` for precisely the
documents with that id: the document list corresponds entry by entry — an
entry with the id keeps all fields but its status, which becomes `pending`,
and every other entry is unchanged — and no other store field is written. -/
theorem reindex_only_failed_resets_pending
    (d : Document) (id : String) (s : KBState) :
    (DocAction.retry ∈ documentActions d ↔ d.status = .failed) ∧
    List.Forall₂
      (fun old new =>
        (old.id = id → new = { old with status := DocStatus.pending }) ∧
        (old.id ≠ id → new = old))
      s.currentDocuments (reindexDocument id s).currentDocuments ∧
    (reindexDocument id s).knowledgeBases = s.knowledgeBases ∧
    (reindexDocument id s).currentKnowledgeBaseId =
      s.currentKnowledgeBaseId ∧
    (reindexDocument id s).selectedKnowledgeBaseIds =
      s.selectedKnowledgeBaseIds ∧
    (reindexDocument id s).uploading = s.uploading ∧
    (reindexDocument id s).previewDocument = s.previewDocument ∧
    (reindexDocument id s).previewLoading = s.previewLoading ∧
    (reindexDocument id s).loading = s.loading ∧
    (reindexDocument id s).error = s.error := by
  refine ⟨?_, ?_, rfl, rfl, rfl, rfl, rfl, rfl, rfl, rfl⟩
  · cases hd : d.status <;> simp [documentActions, hd]
  · show List.Forall₂ _ s.currentDocuments (s.currentDocuments.map _)
    induction s.currentDocuments with
    | nil => exact .nil
    | cons a t ih =>
      refine .cons ⟨?_, ?_⟩ ih
      · intro ha; simp [ha]
      · intro ha; simp [ha]

/-- C4, witness: retry is offered for a concrete failed document, and
reindexing it in the sample store state pends exactly that document. -/
theorem reindex_only_failed_resets_pending_witness :
    (DocAction.retry ∈ documentActions (sampleDoc "d1" .failed) ↔
      (sampleDoc "d1" .failed).status = .failed) ∧
    List.Forall₂
      (fun old new =>
        (old.id = "d1" → new = { old with status := DocStatus.pending }) ∧
        (old.id ≠ "d1" → new = old))
      sampleKBState.currentDocuments
      (reindexDocument "d1" sampleKBState).currentDocuments ∧
    (reindexDocument "d1" sampleKBState).knowledgeBases =
      sampleKBState.knowledgeBases ∧
    (reindexDocument "d1" sampleKBState).currentKnowledgeBaseId =
      sampleKBState.currentKnowledgeBaseId ∧
    (reindexDocument "d1" sampleKBState).selectedKnowledgeBaseIds =
      sampleKBState.selectedKnowledgeBaseIds ∧
    (reindexDocument "d1" sampleKBState).uploading = sampleKBState.uploading ∧
    (reindexDocument "d1" sampleKBState).previewDocument =
      sampleKBState.previewDocument ∧
    (reindexDocument "d1" sampleKBState).previewLoading =
      sampleKBState.previewLoading ∧
    (reindexDocument "d1" sampleKBState).loading = sampleKBState.loading ∧
    (reindexDocument "d1" sampleKBState).error = sampleKBState.error :=
  reindex_only_failed_resets_pending (sampleDoc "d1" .failed) "d1" sampleKBState

/-- C5: a rejected upload causes zero state change — `currentDocuments` is
untouched, the `uploading` flag is reset, the error is recorded, the
rejection is rethrown, and every other store field is unchanged; a
successful upload prepends exactly the returned document. -/
theorem uploadDocument_reject_zero_state_change
    (s : KBState) (kb e : String) (document : Document)
    (hkb : s.currentKnowledgeBaseId = some kb) :
    (uploadDocument (Except.error e) s).1.currentDocuments =
      s.currentDocuments ∧
    (uploadDocument (Except.error e) s).1.uploading = false ∧
    (uploadDocument (Except.error e) s).1.error = some e ∧
    (uploadDocument (Except.error e) s).2 = true ∧
    (uploadDocument (Except.error e) s).1.knowledgeBases =
      s.knowledgeBases ∧
    (uploadDocument (Except.error e) s).1.currentKnowledgeBaseId =
      s.currentKnowledgeBaseId ∧
    (uploadDocument (Except.error e) s).1.selectedKnowledgeBaseIds =
      s.selectedKnowledgeBaseIds ∧
    (uploadDocument (Except.error e) s).1.previewDocument =
      s.previewDocument ∧
    (uploadDocument (Except.error e) s).1.previewLoading =
      s.previewLoading ∧
    (uploadDocument (Except.error e) s).1.loading = s.loading ∧
    (uploadDocument (Except.ok document) s).1.currentDocuments =
      document :: s.currentDocuments ∧
    (uploadDocument (Except.ok document) s).2 = false := by
  simp [uploadDocument, hkb]

/-- C5, witness: a rejected and a successful upload on the sample store
state. -/
theorem uploadDocument_reject_zero_state_change_witness :
    (uploadDocument (Except.error "duplicate") sampleKBState).1.currentDocuments =
      sampleKBState.currentDocuments ∧
    (uploadDocument (Except.error "duplicate") sampleKBState).1.uploading = false ∧
    (uploadDocument (Except.error "duplicate") sampleKBState).1.error =
      some "duplicate" ∧
    (uploadDocument (Except.error "duplicate") sampleKBState).2 = true ∧
    (uploadDocument (Except.error "duplicate") sampleKBState).1.knowledgeBases =
      sampleKBState.knowledgeBases ∧
    (uploadDocument (Except.error "duplicate") sampleKBState).1.currentKnowledgeBaseId =
      sampleKBState.currentKnowledgeBaseId ∧
    (uploadDocument (Except.error "duplicate") sampleKBState).1.selectedKnowledgeBaseIds =
      sampleKBState.selectedKnowledgeBaseIds ∧
    (uploadDocument (Except.error "duplicate") sampleKBState).1.previewDocument =
      sampleKBState.previewDocument ∧
    (uploadDocument (Except.error "duplicate") sampleKBState).1.previewLoading =
      sampleKBState.previewLoading ∧
    (uploadDocument (Except.error "duplicate") sampleKBState).1.loading =
      sampleKBState.loading ∧
    (uploadDocument (Except.ok (sampleDoc "d3" .pending)) sampleKBState).1.currentDocuments =
      sampleDoc "d3" .pending :: sampleKBState.currentDocuments ∧
    (uploadDocument (Except.ok (sampleDoc "d3" .pending)) sampleKBState).2 = false :=
  uploadDocument_reject_zero_state_change sampleKBState "kb1" "duplicate"
    (sampleDoc "d3" .pending) rfl

/-- C6: the delete action is offered for a document of any status, and the
success path of `deleteDocument(id)` removes exactly the documents with that
id (membership characterisation plus order preservation), clears the preview
precisely when it was showing the deleted document, and writes no other
store field. -/
theorem deleteDocument_any_status_purges
    (d : Document) (id : String) (s : KBState) :
    DocAction.deleteDoc ∈ documentActions d ∧
    (∀ x : Document, x ∈ (deleteDocument id s).currentDocuments ↔
      x ∈ s.currentDocuments ∧ x.id ≠ id) ∧
    (deleteDocument id s).currentDocuments.Sublist s.currentDocuments ∧
    ((deleteDocument id s).previewDocument = none ↔
      (s.previewDocument = none ∨
        ∃ p, s.previewDocument = some p ∧ p.doc.id = id)) ∧
    (∀ p, s.previewDocument = some p → p.doc.id ≠ id →
      (deleteDocument id s).previewDocument = some p) ∧
    (deleteDocument id s).knowledgeBases = s.knowledgeBases ∧
    (deleteDocument id s).currentKnowledgeBaseId =
      s.currentKnowledgeBaseId ∧
    (deleteDocument id s).selectedKnowledgeBaseIds =
      s.selectedKnowledgeBaseIds ∧
    (deleteDocument id s).uploading = s.uploading ∧
    (deleteDocument id s).previewLoading = s.previewLoading ∧
    (deleteDocument id s).loading = s.loading ∧
    (deleteDocument id s).error = s.error := by
  refine ⟨?_, ?_, ?_, ?_, ?_, rfl, rfl, rfl, rfl, rfl, rfl, rfl⟩
  · cases hd : d.status <;> simp [documentActions, hd]
  · intro x
    simp [deleteDocument, List.mem_filter]
  · exact List.filter_sublist _
  · cases hp : s.previewDocument with
    | none => simp [deleteDocument, hp]
    | some p =>
      by_cases hid : p.doc.id = id <;> simp [deleteDocument, hp, hid]
  · intro p hp hid
    simp [deleteDocument, hp, hid]

/-- C6, witness: deleting a concrete document id from the sample store
state, with the delete action offered on a completed document. -/
theorem deleteDocument_any_status_purges_witness :
    DocAction.deleteDoc ∈ documentActions (sampleDoc "d2" .completed) ∧
    (∀ x : Document, x ∈ (deleteDocument "d1" sampleKBState).currentDocuments ↔
      x ∈ sampleKBState.currentDocuments ∧ x.id ≠ "d1") ∧
    (deleteDocument "d1" sampleKBState).currentDocuments.Sublist
      sampleKBState.currentDocuments ∧
    ((deleteDocument "d1" sampleKBState).previewDocument = none ↔
      (sampleKBState.previewDocument = none ∨
        ∃ p, sampleKBState.previewDocument = some p ∧ p.doc.id = "d1")) ∧
    (∀ p, sampleKBState.previewDocument = some p → p.doc.id ≠ "d1" →
      (deleteDocument "d1" sampleKBState).previewDocument = some p) ∧
    (deleteDocument "d1" sampleKBState).knowledgeBases =
      sampleKBState.knowledgeBases ∧
    (deleteDocument "d1" sampleKBState).currentKnowledgeBaseId =
      sampleKBState.currentKnowledgeBaseId ∧
    (deleteDocument "d1" sampleKBState).selectedKnowledgeBaseIds =
      sampleKBState.selectedKnowledgeBaseIds ∧
    (deleteDocument "d1" sampleKBState).uploading = sampleKBState.uploading ∧
    (deleteDocument "d1" sampleKBState).previewLoading =
      sampleKBState.previewLoading ∧
    (deleteDocument "d1" sampleKBState).loading = sampleKBState.loading ∧
    (deleteDocument "d1" sampleKBState).error = sampleKBState.error :=
  deleteDocument_any_status_purges (sampleDoc "d2" .completed) "d1" sampleKBState

/-- C7: fusion ranking is deterministic — identical vector-rank and
keyword-rank input lists always produce the same fused order — and the fused
list is sorted by descending reciprocal-rank-fusion score (ties broken by
original vector rank), deduplicated, and consists exactly of the merged
candidates. -/
theorem fusion_deterministic
    (k : ℚ) (v1 kw1 v2 kw2 : List FusionItem)
    (h1 : v1 = v2) (h2 : kw1 = kw2) :
    fuse k v1 kw1 = fuse k v2 kw2 ∧
    (fuse k v1 kw1).Sorted (fusionLE k v1 kw1) ∧
    (fuse k v1 kw1).Nodup ∧
    (∀ c, c ∈ fuse k v1 kw1 ↔ c ∈ v1 ++ kw1) := by
  subst h1
  subst h2
  refine ⟨rfl, ?_, ?_, ?_⟩
  · exact List.sorted_insertionSort _ _
  · exact ((List.perm_insertionSort _ _).nodup_iff).mpr (List.nodup_dedup _)
  · intro c
    rw [show fuse k v1 kw1 =
        List.insertionSort (fusionLE k v1 kw1) ((v1 ++ kw1).dedup) from rfl]
    rw [(List.perm_insertionSort _ _).mem_iff, List.mem_dedup]

/-- C7, witness: two runs of fusion on identical concrete input lists, with
the standard constant k = 60. -/
theorem fusion_deterministic_witness :
    fuse 60 sampleFusionV sampleFusionKw =
      fuse 60 sampleFusionV sampleFusionKw ∧
    (fuse 60 sampleFusionV sampleFusionKw).Sorted
      (fusionLE 60 sampleFusionV sampleFusionKw) ∧
    (fuse 60 sampleFusionV sampleFusionKw).Nodup ∧
    (∀ c, c ∈ fuse 60 sampleFusionV sampleFusionKw ↔
      c ∈ sampleFusionV ++ sampleFusionKw) :=
  fusion_deterministic 60 sampleFusionV sampleFusionKw
    sampleFusionV sampleFusionKw rfl rfl

/-- C8: polling runs exactly while work is in flight — over any committed
render sequence at most one interval timer is ever live, after the last
committed render a timer is live exactly when some document of that render is
pending/processing, and unmounting clears the timer. -/
theorem polling_single_timer_iff_pending (renders : List (List Document)) :
    (∀ n, (pollRun (renders.take n)).live.length ≤ 1) ∧
    ((pollRun renders).live ≠ [] ↔
      hasPendingDocs ((renders.getLast?).getD []) = true) ∧
    (pollUnmount (pollRun renders)).live = [] := by
  have hinit : PollInv (⟨[], none, 0⟩ : PollState) := by
    unfold PollInv
    rfl
  have hagree : ∀ f : Bool, (none : Option Bool) = some f →
      (⟨[], none, 0⟩ : PollState).pollingRef.isSome = f := by
    intro f hf
    exact absurd hf (by simp)
  have key : ∀ rs : List (List Document),
      PollInv (pollRun rs) ∧
      (pollRun rs).pollingRef.isSome =
        ((rs.map hasPendingDocs).getLast?.getD false) := by
    intro rs
    exact pollRenders_inv rs none ⟨[], none, 0⟩ hinit hagree
  refine ⟨?_, ?_, ?_⟩
  · intro n
    obtain ⟨hinv, _⟩ := key (renders.take n)
    unfold PollInv at hinv
    cases hr : (pollRun (renders.take n)).pollingRef with
    | none => rw [hr] at hinv; simp [hinv]
    | some t => rw [hr] at hinv; simp [hinv]
  · obtain ⟨hinv, hsome⟩ := key renders
    have hmap : (renders.map hasPendingDocs).getLast? =
        renders.getLast?.map hasPendingDocs := by
      exact List.getLast?_map _ _
    have hlast : ((renders.map hasPendingDocs).getLast?.getD false) =
        hasPendingDocs ((renders.getLast?).getD []) := by
      rw [hmap]
      cases renders.getLast? with
      | none => rfl
      | some docs => rfl
    unfold PollInv at hinv
    cases hr : (pollRun renders).pollingRef with
    | none =>
      rw [hr] at hinv hsome
      rw [hinv]
      simp only [ne_eq, not_true_eq_false, false_iff]
      rw [← hlast, ← hsome]
      simp
    | some t =>
      rw [hr] at hinv hsome
      rw [hinv]
      simp only [ne_eq, List.cons_ne_nil, not_false_eq_true, true_iff]
      rw [← hlast, ← hsome]
      rfl
  · obtain ⟨hinv, _⟩ := key renders
    exact (pollCleanup_spec _ hinv).2

/-- C8, witness: a single committed render with one pending document. -/
theorem polling_single_timer_iff_pending_witness :
    (∀ n, (pollRun ([[sampleDoc "d1" .pending]].take n)).live.length ≤ 1) ∧
    ((pollRun [[sampleDoc "d1" .pending]]).live ≠ [] ↔
      hasPendingDocs (([[sampleDoc "d1" .pending]].getLast?).getD []) =
        true) ∧
    (pollUnmount (pollRun [[sampleDoc "d1" .pending]])).live = [] :=
  polling_single_timer_iff_pending [[sampleDoc "d1" .pending]]

/-- C9, counterexample: toggling an already-selected id twice does not
restore the selection list to its original value — the id moves to the end
(`["a", "b"]` becomes `["b", "a"]`). -/
theorem toggleSelection_involutive_counterexample :
    (toggleKnowledgeBaseSelection "a"
        (toggleKnowledgeBaseSelection "a" sampleKBState)).selectedKnowledgeBaseIds =
      ["b", "a"] ∧
    (toggleKnowledgeBaseSelection "a"
        (toggleKnowledgeBaseSelection "a" sampleKBState)).selectedKnowledgeBaseIds ≠
      sampleKBState.selectedKnowledgeBaseIds := by
  decide

/-- C9, amended: toggling twice restores the selection list exactly when the
id was not selected; in general it restores the set of selected ids (a
re-toggled id moves to the end of the list); any sequence of toggles keeps
the selection duplicate-free; and no field other than
`selectedKnowledgeBaseIds` is modified. -/
theorem toggleSelection_set_involutive_duplicate_free
    (s : KBState) (id x : String) (ids : List String) :
    (id ∉ s.selectedKnowledgeBaseIds →
      toggleKnowledgeBaseSelection id (toggleKnowledgeBaseSelection id s) = s) ∧
    (x ∈ (toggleKnowledgeBaseSelection id
        (toggleKnowledgeBaseSelection id s)).selectedKnowledgeBaseIds ↔
      x ∈ s.selectedKnowledgeBaseIds) ∧
    (s.selectedKnowledgeBaseIds.Nodup →
      ((ids.foldl (fun st i => toggleKnowledgeBaseSelection i st)
          s).selectedKnowledgeBaseIds).Nodup) ∧
    (toggleKnowledgeBaseSelection id s).knowledgeBases = s.knowledgeBases ∧
    (toggleKnowledgeBaseSelection id s).currentKnowledgeBaseId =
      s.currentKnowledgeBaseId ∧
    (toggleKnowledgeBaseSelection id s).currentDocuments =
      s.currentDocuments ∧
    (toggleKnowledgeBaseSelection id s).uploading = s.uploading ∧
    (toggleKnowledgeBaseSelection id s).previewDocument =
      s.previewDocument ∧
    (toggleKnowledgeBaseSelection id s).previewLoading = s.previewLoading ∧
    (toggleKnowledgeBaseSelection id s).loading = s.loading ∧
    (toggleKnowledgeBaseSelection id s).error = s.error := by
  refine ⟨?_, ?_, ?_, rfl, rfl, rfl, rfl, rfl, rfl, rfl, rfl⟩
  · intro h
    rw [toggle_eq_toggleL, toggle_eq_toggleL]
    simp only
    rw [toggleL_not_mem id _ h]
  · rw [toggle_eq_toggleL, toggle_eq_toggleL]
    exact toggleL_mem_iff id x s.selectedKnowledgeBaseIds
  · intro h
    rw [foldl_toggle_selected]
    generalize s.selectedKnowledgeBaseIds = l at h ⊢
    induction ids generalizing l with
    | nil => exact h
    | cons i rest ih =>
      simp only [List.foldl_cons]
      exact ih (toggleL i l) (toggleL_nodup i l h)

/-- C9, witness: the amended statement on the sample store state, toggling
the unselected id `"c"`. -/
theorem toggleSelection_set_involutive_duplicate_free_witness :
    ("c" ∉ sampleKBState.selectedKnowledgeBaseIds →
      toggleKnowledgeBaseSelection "c"
        (toggleKnowledgeBaseSelection "c" sampleKBState) = sampleKBState) ∧
    ("a" ∈ (toggleKnowledgeBaseSelection "c"
        (toggleKnowledgeBaseSelection "c"
          sampleKBState)).selectedKnowledgeBaseIds ↔
      "a" ∈ sampleKBState.selectedKnowledgeBaseIds) ∧
    (sampleKBState.selectedKnowledgeBaseIds.Nodup →
      ((["a", "c"].foldl (fun st i => toggleKnowledgeBaseSelection i st)
          sampleKBState).selectedKnowledgeBaseIds).Nodup) ∧
    (toggleKnowledgeBaseSelection "c" sampleKBState).knowledgeBases =
      sampleKBState.knowledgeBases ∧
    (toggleKnowledgeBaseSelection "c" sampleKBState).currentKnowledgeBaseId =
      sampleKBState.currentKnowledgeBaseId ∧
    (toggleKnowledgeBaseSelection "c" sampleKBState).currentDocuments =
      sampleKBState.currentDocuments ∧
    (toggleKnowledgeBaseSelection "c" sampleKBState).uploading =
      sampleKBState.uploading ∧
    (toggleKnowledgeBaseSelection "c" sampleKBState).previewDocument =
      sampleKBState.previewDocument ∧
    (toggleKnowledgeBaseSelection "c" sampleKBState).previewLoading =
      sampleKBState.previewLoading ∧
    (toggleKnowledgeBaseSelection "c" sampleKBState).loading =
      sampleKBState.loading ∧
    (toggleKnowledgeBaseSelection "c" sampleKBState).error =
      sampleKBState.error :=
  toggleSelection_set_involutive_duplicate_free sampleKBState "c" "a"
    ["a", "c"]

/-- C10, counterexample: deleting the current conversation when the first
remaining conversation has the empty string as id — the `|| null` in
`newConversations[0]?.id || null` coerces the falsy id to `null`, so
`currentConversationId` becomes `none` although a first remaining
conversation exists, contradicting the claim that it becomes that
conversation's id. -/
theorem deleteConversation_current_counterexample :
    (deleteConversation "c1" sampleConvState).conversations.head? =
      some (sampleConv "") ∧
    (sampleConv "").id = "" ∧
    (deleteConversation "c1" sampleConvState).currentConversationId = none ∧
    (deleteConversation "c1" sampleConvState).currentConversationId ≠
      some (sampleConv "").id := by
  decide

/-- C10, amended: after a successful `deleteConversation(id)` the
conversation with that id is removed (membership characterisation plus order
preservation); if the deleted conversation was not current, the current id
and the messages are unchanged; if it was current, the messages become empty
and the current id becomes the id of the first remaining conversation —
except that a falsy (empty-string) id is coerced to null — or null when no
conversation remains; `loading` and `error` are untouched. -/
theorem deleteConversation_removes_and_switches
    (id : String) (s : ConvState) :
    (∀ c : Conversation, c ∈ (deleteConversation id s).conversations ↔
      c ∈ s.conversations ∧ c.id ≠ id) ∧
    (deleteConversation id s).conversations.Sublist s.conversations ∧
    (s.currentConversationId ≠ some id →
      (deleteConversation id s).currentConversationId =
        s.currentConversationId ∧
      (deleteConversation id s).messages = s.messages) ∧
    (s.currentConversationId = some id →
      (deleteConversation id s).messages = [] ∧
      ((deleteConversation id s).conversations = [] →
        (deleteConversation id s).currentConversationId = none) ∧
      (∀ c rest, (deleteConversation id s).conversations = c :: rest →
        (deleteConversation id s).currentConversationId =
          (if c.id = "" then none else some c.id))) ∧
    (deleteConversation id s).loading = s.loading ∧
    (deleteConversation id s).error = s.error := by
  refine ⟨?_, ?_, ?_, ?_, rfl, rfl⟩
  · intro c
    simp [deleteConversation, List.mem_filter]
  · exact List.filter_sublist _
  · intro h
    simp [deleteConversation, h]
  · intro h
    refine ⟨by simp [deleteConversation, h], ?_, ?_⟩
    · intro hempty
      simp only [deleteConversation, h, if_pos rfl] at *
      rw [show (s.conversations.filter (fun c => c.id ≠ id)) = [] from hempty]
      simp
    · intro c rest hcons
      simp only [deleteConversation, h, if_pos rfl] at *
      rw [show (s.conversations.filter (fun c => c.id ≠ id)) = c :: rest
        from hcons]
      simp

/-- C10, witness: deleting a non-current conversation id from the sample
state. -/
theorem deleteConversation_removes_and_switches_witness :
    (∀ c : Conversation,
      c ∈ (deleteConversation "zz" sampleConvState).conversations ↔
        c ∈ sampleConvState.conversations ∧ c.id ≠ "zz") ∧
    (deleteConversation "zz" sampleConvState).conversations.Sublist
      sampleConvState.conversations ∧
    (sampleConvState.currentConversationId ≠ some "zz" →
      (deleteConversation "zz" sampleConvState).currentConversationId =
        sampleConvState.currentConversationId ∧
      (deleteConversation "zz" sampleConvState).messages =
        sampleConvState.messages) ∧
    (sampleConvState.currentConversationId = some "zz" →
      (deleteConversation "zz" sampleConvState).messages = [] ∧
      ((deleteConversation "zz" sampleConvState).conversations = [] →
        (deleteConversation "zz" sampleConvState).currentConversationId =
          none) ∧
      (∀ c rest,
        (deleteConversation "zz" sampleConvState).conversations = c :: rest →
        (deleteConversation "zz" sampleConvState).currentConversationId =
          (if c.id = "" then none else some c.id))) ∧
    (deleteConversation "zz" sampleConvState).loading =
      sampleConvState.loading ∧
    (deleteConversation "zz" sampleConvState).error =
      sampleConvState.error :=
  deleteConversation_removes_and_switches "zz" sampleConvState

end Atlas
